import Mathlib

/-!
Verification of the agentic-flow trading system core against its
natural-language specification.

The definitions below are a shallow embedding of
`src/trading-system/src/mathematical_framework.py` (Fibonacci/Lucas/Zeckendorf
level encoder) and `src/trading-system/src/backtesting_engine.py`
(risk manager, performance analyzer, backtesting engine).  Python floats are
modelled as exact rationals (`ℚ`), Python ints as `Int`/`Nat`, Python lists as
`List`, and Python `None`-able fields as `Option`.  Python truthiness tests on
numeric optionals (`if signal.stop_loss:`) are modelled by `truthy`.
-/

namespace AgenticFlow

/-! ## Fibonacci table (`FibonacciPriceEncoder._generate_fibonacci`)

`_generate_fibonacci(n)` builds `[F(0), F(1), ..., F(n)]` by the recurrence
`F(0)=0, F(1)=1, F(i)=F(i-1)+F(i-2)`, which is exactly `Nat.fib`.  The
`ZeckendorfCompressor` constructs `FibonacciPriceEncoder(max_index=100)`, so
its `fib_sequence` is the 101-element list `[F(0), ..., F(100)]`. -/

def fibTable : List ℕ := (List.range 101).map Nat.fib

/-! ## `ZeckendorfCompressor.compress`

The Python loop scans indices `i = len(fib)-1, ..., 1` (descending), greedily
taking `fib[i]` whenever `fib[i] <= remaining`.  The early `break` when
`remaining == 0` is semantically a no-op: for every scanned index `i ≥ 1` we
have `fib[i] ≥ 1 > 0`, so once `remaining = 0` no further index is taken. -/

def compressLoop : List ℕ → ℕ → List ℕ
  | [], _ => []
  | i :: is, remaining =>
    if fibTable.getD i 0 ≤ remaining then
      i :: compressLoop is (remaining - fibTable.getD i 0)
    else
      compressLoop is remaining

/-- The descending scan order `[k, k-1, ..., 1]` (Python
`range(len(self.fib_sequence) - 1, 0, -1)` with `len = k + 1`). -/
def descIdx (k : ℕ) : List ℕ := (List.range' 1 k).reverse

/-- Embeds `compress(value)`: `value <= 0` returns `[]`; otherwise the greedy
descending scan, returned in ascending order (`sorted(indices)`; the loop
appends indices in strictly decreasing order, so ascending sort is exactly
list reversal). -/
def compress (value : Int) : List ℕ :=
  if value ≤ 0 then []
  else (compressLoop (descIdx 100) value.toNat).reverse

/-- The validation loop of `decompress`: for consecutive entries `i, j` of the
index list, `indices[i+1] - indices[i] < 2` raises `ValueError`.  Python ints
subtract without truncation, hence the cast to `Int`. -/
def nonConsecutiveOK : List ℕ → Bool
  | i :: j :: rest => decide ((2 : Int) ≤ (j : Int) - (i : Int)) && nonConsecutiveOK (j :: rest)
  | _ => true

/-- Embeds `decompress(indices)`: `[]` decodes to `0`; consecutive indices raise
`ValueError`; an index outside the precomputed table raises `IndexError`
(Python list indexing); otherwise the sum of the indexed Fibonacci numbers. -/
def decompress (indices : List ℕ) : Except String ℕ :=
  if indices = [] then .ok 0
  else if nonConsecutiveOK indices = false then
    .error "Invalid Zeckendorf: consecutive indices"
  else if indices.all (fun i => i < fibTable.length) then
    .ok ((indices.map (fun i => fibTable.getD i 0)).sum)
  else .error "IndexError"

/-! ## Lucas table (`LucasTimeEncoder._generate_lucas`)

`_generate_lucas(n)` builds `[L(0), ..., L(n)]` by `L(0)=2, L(1)=1,
L(i)=L(i-1)+L(i-2)`; the constructor default `max_index=100` gives a
101-element table.  `lucasPair n = (L(n), L(n+1))` iterates the same
recurrence linearly. -/

def lucasPair : ℕ → ℕ × ℕ
  | 0 => (2, 1)
  | n + 1 => ((lucasPair n).2, (lucasPair n).1 + (lucasPair n).2)

def lucasNum (n : ℕ) : ℕ := (lucasPair n).1

def lucasTable : List ℕ := (List.range 101).map lucasNum

/-- Embeds `LucasTimeEncoder.is_nash_equilibrium_point(time_index)`: out-of-range
indices (negative or beyond the table) return `False`; otherwise tests
`lucas_sequence[time_index] % 3 == 0`. -/
def is_nash_equilibrium_point (time_index : Int) : Bool :=
  if time_index < 0 ∨ (lucasTable.length : Int) ≤ time_index then false
  else decide (lucasTable.getD time_index.toNat 0 % 3 = 0)

/-! ## Basic facts about the tables -/

lemma fibTable_length : fibTable.length = 101 := by
  simp [fibTable]

lemma fibTable_getD (i : ℕ) (hi : i < 101) : fibTable.getD i 0 = Nat.fib i := by
  rw [fibTable, List.getD_eq_getElem?_getD]
  rw [List.getElem?_map, List.getElem?_range hi]
  rfl

lemma descIdx_succ (k : ℕ) : descIdx (k + 1) = (k + 1) :: descIdx k := by
  have h : List.range' 1 (k + 1) = List.range' 1 k ++ [1 + k] := by
    simpa using List.range'_1_concat 1 k
  simp [descIdx, h, Nat.add_comm]

lemma compressLoop_skip (m r : ℕ) (hr : r < fibTable.getD (m + 1) 0) :
    compressLoop (descIdx (m + 1)) r = compressLoop (descIdx m) r := by
  rw [descIdx_succ]
  simp only [compressLoop, if_neg (Nat.not_le.mpr hr)]

/-- Correctness of the greedy descending scan `compressLoop` on the index list
`[k, ..., 1]`, for remainders below `F(k+1)`: the chosen Fibonacci numbers sum
back to the remainder, the chosen indices are strictly decreasing with gaps of
at least 2, and every chosen index lies in `[1, k]`. -/
lemma compressLoop_correct :
    ∀ k, k ≤ 100 → ∀ r, r < Nat.fib (k + 1) →
      ((compressLoop (descIdx k) r).map (fun i => fibTable.getD i 0)).sum = r ∧
      List.Chain' (fun a b => b + 2 ≤ a) (compressLoop (descIdx k) r) ∧
      ∀ i ∈ compressLoop (descIdx k) r, 1 ≤ i ∧ i ≤ k := by
  intro k
  induction k using Nat.strong_induction_on with
  | _ k ih =>
    cases k with
    | zero =>
      intro _ r hr
      have h1 : Nat.fib (0 + 1) = 1 := rfl
      have hr0 : r = 0 := by omega
      subst hr0
      simp [descIdx, compressLoop]
    | succ m =>
      intro hk r hr
      have hm101 : m + 1 < 101 := by omega
      have hgetD : fibTable.getD (m + 1) 0 = Nat.fib (m + 1) := fibTable_getD _ hm101
      by_cases hpick : Nat.fib (m + 1) ≤ r
      · -- greedy takes index m+1
        have hcond : fibTable.getD (m + 1) 0 ≤ r := by rw [hgetD]; exact hpick
        have hstep : compressLoop (descIdx (m + 1)) r =
            (m + 1) :: compressLoop (descIdx m) (r - fibTable.getD (m + 1) 0) := by
          rw [descIdx_succ]
          simp only [compressLoop, if_pos hcond]
        have hfib2 : Nat.fib (m + 1 + 1) = Nat.fib m + Nat.fib (m + 1) := Nat.fib_add_two
        have hr' : r - Nat.fib (m + 1) < Nat.fib m := by omega
        cases m with
        | zero =>
          -- impossible: the remainder would be below F(0) = 0
          exfalso
          have h0 : Nat.fib 0 = 0 := rfl
          omega
        | succ m' =>
          have hskip : compressLoop (descIdx (m' + 1)) (r - Nat.fib (m' + 1 + 1)) =
              compressLoop (descIdx m') (r - Nat.fib (m' + 1 + 1)) := by
            apply compressLoop_skip
            rw [fibTable_getD _ (by omega)]
            exact hr'
          obtain ⟨ihsum, ihchain, ihmem⟩ :=
            ih m' (by omega) (by omega) (r - Nat.fib (m' + 1 + 1)) hr'
          rw [hstep, hgetD, hskip]
          refine ⟨?_, ?_, ?_⟩
          · simp only [List.map_cons, List.sum_cons, ihsum]
            omega
          · rw [List.chain'_cons']
            refine ⟨?_, ihchain⟩
            intro y hy
            have hymem : y ∈ compressLoop (descIdx m') (r - Nat.fib (m' + 1 + 1)) :=
              List.mem_of_mem_head? hy
            have := (ihmem y hymem).2
            omega
          · intro i hi
            rcases List.mem_cons.mp hi with hi | hi
            · omega
            · have := ihmem i hi
              omega
      · -- greedy skips index m+1
        have hcond : ¬ fibTable.getD (m + 1) 0 ≤ r := by rw [hgetD]; exact hpick
        have hstep : compressLoop (descIdx (m + 1)) r = compressLoop (descIdx m) r := by
          rw [descIdx_succ]
          simp only [compressLoop, if_neg hcond]
        obtain ⟨ihsum, ihchain, ihmem⟩ :=
          ih m (by omega) (by omega) r (by omega)
        rw [hstep]
        refine ⟨ihsum, ihchain, ?_⟩
        intro i hi
        have := ihmem i hi
        omega

lemma nonConsecutiveOK_of_chain' :
    ∀ l : List ℕ, List.Chain' (fun a b => a + 2 ≤ b) l → nonConsecutiveOK l = true
  | [], _ => rfl
  | [_], _ => rfl
  | i :: j :: rest, h => by
    rw [List.chain'_cons] at h
    simp only [nonConsecutiveOK, Bool.and_eq_true, decide_eq_true_eq]
    exact ⟨by omega, nonConsecutiveOK_of_chain' (j :: rest) h.2⟩

/-- Strictly-decreasing-with-gap-2 chains reverse into increasing chains. -/
lemma chain'_reverse_of_desc (l : List ℕ) (h : List.Chain' (fun a b => b + 2 ≤ a) l) :
    List.Chain' (fun a b => a + 2 ≤ b) l.reverse := by
  rw [List.chain'_reverse]
  exact h.imp (fun a b hab => hab)

lemma compress_sum (v : ℕ) (hv : v < Nat.fib 101) :
    ((compress (v : Int)).map (fun i => fibTable.getD i 0)).sum = v := by
  rcases Nat.eq_zero_or_pos v with h0 | hpos
  · subst h0; rfl
  · have hneg : ¬ ((v : Int) ≤ 0) := by
      simp only [not_le]
      exact_mod_cast hpos
    rw [compress, if_neg hneg, Int.toNat_natCast]
    obtain ⟨hsum, _, _⟩ := compressLoop_correct 100 (le_refl 100) v hv
    rw [List.map_reverse, List.sum_reverse]
    exact hsum

lemma compress_chain' (v : ℕ) (hv : v < Nat.fib 101) :
    List.Chain' (fun a b => a + 2 ≤ b) (compress (v : Int)) := by
  rcases Nat.eq_zero_or_pos v with h0 | hpos
  · subst h0; simp [compress]
  · have hneg : ¬ ((v : Int) ≤ 0) := by
      simp only [not_le]
      exact_mod_cast hpos
    rw [compress, if_neg hneg, Int.toNat_natCast]
    obtain ⟨_, hchain, _⟩ := compressLoop_correct 100 (le_refl 100) v hv
    exact chain'_reverse_of_desc _ hchain

lemma compress_mem (v : ℕ) (hv : v < Nat.fib 101) :
    ∀ i ∈ compress (v : Int), 1 ≤ i ∧ i ≤ 100 := by
  rcases Nat.eq_zero_or_pos v with h0 | hpos
  · subst h0; simp [compress]
  · have hneg : ¬ ((v : Int) ≤ 0) := by
      simp only [not_le]
      exact_mod_cast hpos
    rw [compress, if_neg hneg, Int.toNat_natCast]
    obtain ⟨_, _, hmem⟩ := compressLoop_correct 100 (le_refl 100) v hv
    intro i hi
    exact hmem i (List.mem_reverse.mp hi)

/-- C2: for every `v ≥ 0` representable inside the precomputed table
(`v < F(101)`, the first Fibonacci number beyond the 101-entry table
`[F(0), ..., F(100)]`), `decompress (compress v) = v`, including `v = 0`. -/
theorem compress_decompress_roundtrip (v : ℕ) (hv : v < Nat.fib 101) :
    decompress (compress (v : Int)) = Except.ok v := by
  rcases Nat.eq_zero_or_pos v with h0 | hpos
  · subst h0; rfl
  · have hsum := compress_sum v hv
    have hchain := compress_chain' v hv
    have hmem := compress_mem v hv
    have hne : compress (v : Int) ≠ [] := by
      intro hnil
      rw [hnil] at hsum
      simp at hsum
      omega
    have hok : nonConsecutiveOK (compress (v : Int)) = true :=
      nonConsecutiveOK_of_chain' _ hchain
    have hall : (compress (v : Int)).all (fun i => i < fibTable.length) = true := by
      rw [List.all_eq_true]
      intro i hi
      rw [fibTable_length]
      simp only [decide_eq_true_eq]
      have := hmem i hi
      omega
    rw [decompress, if_neg hne, hok]
    simp only [Bool.true_eq_false, if_false, hall, if_true, hsum]

/-- Witness for C2 at the concrete input `v = 100`
(matching the spec scenario `zeckendorf_compress(100) == [4, 6, 11]`). -/
theorem compress_decompress_roundtrip_witness :
    decompress (compress (100 : Int)) = Except.ok 100 :=
  compress_decompress_roundtrip 100 (by decide)

/-- C5 (counterexample): `compress` does not fail on negative input — it
returns the ordinary value `[]`, the same result as for input `0`. -/
theorem compress_neg_counterexample :
    compress (-5) = ([] : List ℕ) ∧ compress (-5) = compress 0 := by
  constructor <;> rfl

/-- C5 (amended): for every `value ≤ 0` — negative inputs included —
`compress` returns the empty list; no error is raised. -/
theorem compress_nonpos_eq_nil (value : Int) (h : value ≤ 0) :
    compress value = [] := by
  rw [compress, if_pos h]

/-- Witness for the amended C5 at the concrete input `-7`. -/
theorem compress_nonpos_eq_nil_witness : compress (-7) = [] :=
  compress_nonpos_eq_nil (-7) (by decide)

/-- C6 (counterexample): at the concrete input `F(101) = F(100) + F(99) =
573147844013817084101` — the first value beyond the precomputed table — the
greedy scan returns the consecutive indices `[99, 100]`, which differ by less
than 2 (so the non-consecutiveness claim fails for unbounded `v ≥ 0`). -/
theorem compress_consecutive_counterexample :
    compress (573147844013817084101 : Int) = [99, 100] ∧
      ¬ List.Pairwise (fun a b : ℕ => a + 2 ≤ b ∨ b + 2 ≤ a)
          (compress (573147844013817084101 : Int)) := by
  constructor
  · decide
  · intro h
    have : compress (573147844013817084101 : Int) = [99, 100] := by decide
    rw [this] at h
    have h99 := List.rel_of_pairwise_cons h (List.mem_singleton.mpr rfl)
    omega

/-- C6 (amended): for every `v ≥ 0` representable inside the precomputed
table (`v < F(101)`), any two distinct indices returned by `compress` differ
by at least 2. -/
theorem compress_nonconsecutive (v : ℕ) (hv : v < Nat.fib 101) :
    List.Pairwise (fun a b : ℕ => a + 2 ≤ b ∨ b + 2 ≤ a) (compress (v : Int)) := by
  have hchain := compress_chain' v hv
  haveI : IsTrans ℕ (fun a b : ℕ => a + 2 ≤ b) := ⟨fun a b c hab hbc => by omega⟩
  have hpair : List.Pairwise (fun a b : ℕ => a + 2 ≤ b) (compress (v : Int)) :=
    List.chain'_iff_pairwise.mp hchain
  exact hpair.imp (fun h => Or.inl h)

/-- Witness for the amended C6 at the concrete input `v = 100`. -/
theorem compress_nonconsecutive_witness :
    List.Pairwise (fun a b : ℕ => a + 2 ≤ b ∨ b + 2 ≤ a) (compress (100 : Int)) :=
  compress_nonconsecutive 100 (by decide)

/-- C10: `is_nash_equilibrium_point` is a total Boolean test: it returns
`true` exactly when the index is inside the precomputed 101-entry Lucas table
and the Lucas number there is divisible by 3; every out-of-range index
(negative or too large) yields `false` rather than an error. -/
theorem is_nash_equilibrium_point_spec (time_index : Int) :
    is_nash_equilibrium_point time_index = true ↔
      0 ≤ time_index ∧ time_index < (lucasTable.length : Int) ∧
        lucasTable.getD time_index.toNat 0 % 3 = 0 := by
  rw [is_nash_equilibrium_point]
  by_cases h : time_index < 0 ∨ (lucasTable.length : Int) ≤ time_index
  · rw [if_pos h]
    simp only [Bool.false_eq_true, false_iff]
    intro ⟨h1, h2, _⟩
    rcases h with h | h <;> omega
  · rw [if_neg h]
    push_neg at h
    simp only [decide_eq_true_eq]
    constructor
    · intro hmod
      exact ⟨h.1, h.2, hmod⟩
    · intro ⟨_, _, hmod⟩
      exact hmod

/-! ## Backtesting engine (`backtesting_engine.py`)

Prices and money amounts (Python floats) are modelled as exact rationals.
`truthy` models Python's truthiness test on an optional float field
(`None` and `0.0` are falsy, every other number is truthy). -/

def truthy : Option ℚ → Bool
  | none => false
  | some x => decide (x ≠ 0)

inductive SignalType
  | BUY
  | SELL
  | HOLD
deriving DecidableEq

inductive TradeStatus
  | OPEN
  | CLOSED
deriving DecidableEq

inductive ExitReason
  | SIGNAL
  | STOP_LOSS
  | TAKE_PROFIT
  | END_OF_DATA
deriving DecidableEq

/-- One OHLCV bar (a row of the input DataFrame). Timestamps are abstract. -/
structure Bar where
  timestamp : ℕ
  openPrice : ℚ
  high : ℚ
  low : ℚ
  close : ℚ
  volume : ℚ
deriving DecidableEq

instance : Inhabited Bar := ⟨⟨0, 0, 0, 0, 0, 0⟩⟩

/-- The `Signal` dataclass (`metadata` omitted: the engine never reads it). -/
structure Signal where
  timestamp : ℕ
  signal_type : SignalType
  price : ℚ
  position_size : ℚ
  stop_loss : Option ℚ
  take_profit : Option ℚ
  fibonacci_level : Option ℚ
  confidence : ℚ
deriving DecidableEq

/-- The `Trade` dataclass. -/
structure Trade where
  entry_timestamp : ℕ
  exit_timestamp : Option ℕ
  entry_price : ℚ
  exit_price : Option ℚ
  position_size : ℚ
  stop_loss : Option ℚ
  take_profit : Option ℚ
  pnl : ℚ
  pnl_pct : ℚ
  status : TradeStatus
  exit_reason : Option ExitReason
  fibonacci_level : Option ℚ
deriving DecidableEq

/-- Embeds `Trade.close_trade`: record exit data and P&L, mark the trade closed.
(`pnl_pct` divides by `entry_price`; engine-created trades have a positive
entry price, and `ℚ` division is total.) -/
def Trade.close_trade (t : Trade) (exit_price : ℚ) (exit_timestamp : ℕ)
    (reason : ExitReason) : Trade :=
  { t with
    exit_price := some exit_price
    exit_timestamp := some exit_timestamp
    pnl := (exit_price - t.entry_price) * t.position_size
    pnl_pct := ((exit_price - t.entry_price) / t.entry_price) * 100
    status := TradeStatus.CLOSED
    exit_reason := some reason }

/-- The `RiskManager` default configuration dictionary
(`fibonacci_position_sizes` omitted: it is never read). -/
structure RiskConfig where
  max_position_size : ℚ
  max_portfolio_risk : ℚ
  default_stop_loss_pct : ℚ
  risk_reward_ratio : ℚ

def defaultRiskConfig : RiskConfig :=
  { max_position_size := 618 / 1000
    max_portfolio_risk := 236 / 1000
    default_stop_loss_pct := 5 / 100
    risk_reward_ratio := 1618 / 1000 }

/-- Minimum of a list of rationals (`pandas Series.min()` over a nonempty
slice). -/
def listMin : List ℚ → ℚ
  | [] => 0
  | x :: xs => xs.foldl min x

/-- Embeds `RiskManager.calculate_position_size`.  The engine always calls it with
the default `volatility = 1.0`, passed explicitly here. -/
def calculate_position_size (cfg : RiskConfig) (signal : Signal)
    (portfolio_value : ℚ) (current_positions : List Trade) (volatility : ℚ) : ℚ :=
  let capital_in_positions :=
    ((current_positions.filter (fun t => decide (t.status = TradeStatus.OPEN))).map
      (fun t => t.position_size)).sum
  let available_capital := portfolio_value - capital_in_positions
  let size_fraction : ℚ :=
    if 9 / 10 ≤ signal.confidence then 618 / 1000
    else if 7 / 10 ≤ signal.confidence then 382 / 1000
    else if 5 / 10 ≤ signal.confidence then 236 / 1000
    else 146 / 1000
  let size_fraction := size_fraction / volatility
  let size_fraction := min size_fraction cfg.max_position_size
  let position_size := available_capital * size_fraction
  let max_risk_amount := portfolio_value * cfg.max_portfolio_risk
  if truthy signal.stop_loss then
    let risk_per_share := |signal.price - signal.stop_loss.getD 0|
    let max_shares := if 0 < risk_per_share then max_risk_amount / risk_per_share else 0
    min position_size (max_shares * signal.price)
  else position_size

/-- Embeds `RiskManager.calculate_stop_loss`: the signal's own stop if truthy, else
the percentage stop, lowered to 2% below the 20-bar trailing low when
`index >= 20`. -/
def calculate_stop_loss (cfg : RiskConfig) (entry_price : ℚ) (signal : Signal)
    (data : List Bar) (index : ℕ) : ℚ :=
  if truthy signal.stop_loss then signal.stop_loss.getD 0
  else
    let stop_loss := entry_price * (1 - cfg.default_stop_loss_pct)
    if 20 ≤ index then
      let recent_low := listMin (((data.drop (index - 20)).take 20).map (fun b => b.low))
      let fibonacci_stop := recent_low * (98 / 100)
      min stop_loss fibonacci_stop
    else stop_loss

/-- Embeds `RiskManager.calculate_take_profit`: the signal's own target if truthy,
else `entry_price + |entry_price - stop_loss| * risk_reward_ratio` (the code
computes `risk = abs(entry_price - stop_loss)` before scaling). -/
def calculate_take_profit (cfg : RiskConfig) (entry_price : ℚ) (stop_loss : ℚ)
    (signal : Signal) : ℚ :=
  if truthy signal.take_profit then signal.take_profit.getD 0
  else
    let risk := |entry_price - stop_loss|
    let reward := risk * cfg.risk_reward_ratio
    entry_price + reward

/-- Embeds `RiskManager.validate_trade` (the rejection-reason strings are only ever
used for logging; the engine branches on the Boolean alone). -/
def validate_trade (cfg : RiskConfig) (signal : Signal) (portfolio_value : ℚ)
    (current_positions : List Trade) : Bool × String :=
  let open_positions :=
    (current_positions.filter (fun t => decide (t.status = TradeStatus.OPEN))).length
  if 5 ≤ open_positions then (false, "Maximum concurrent positions reached")
  else if truthy signal.stop_loss ∧
      (let risk_amount := |signal.price - signal.stop_loss.getD 0| * signal.position_size
       cfg.max_portfolio_risk < risk_amount / portfolio_value) then
    (false, "Trade risk exceeds maximum")
  else if truthy signal.stop_loss ∧ truthy signal.take_profit ∧
      (let risk := |signal.price - signal.stop_loss.getD 0|
       let reward := |signal.take_profit.getD 0 - signal.price|
       let rr_ratio := if 0 < risk then reward / risk else 0
       rr_ratio < cfg.risk_reward_ratio) then
    (false, "Risk reward ratio below minimum")
  else (true, "Trade validated")

/-- Engine construction parameters. -/
structure EngineConfig where
  initial_capital : ℚ
  commission : ℚ
  slippage : ℚ
  risk : RiskConfig

def defaultEngineConfig : EngineConfig :=
  { initial_capital := 100000
    commission := 1 / 1000
    slippage := 1 / 1000
    risk := defaultRiskConfig }

/-- The mutable state of `BacktestingEngine`. -/
structure EngineState where
  portfolio_value : ℚ
  cash : ℚ
  positions : List Trade
  closed_trades : List Trade
  equity_curve : List ℚ
  timestamps : List ℕ

/-- Embeds `BacktestingEngine.reset`. -/
def reset (cfg : EngineConfig) : EngineState :=
  { portfolio_value := cfg.initial_capital
    cash := cfg.initial_capital
    positions := []
    closed_trades := []
    equity_curve := [cfg.initial_capital]
    timestamps := [] }

/-- Embeds `BacktestingEngine._execute_buy`. -/
def _execute_buy (cfg : EngineConfig) (s : EngineState) (signal : Signal)
    (data : List Bar) (index : ℕ) : EngineState :=
  let is_valid := (validate_trade cfg.risk signal s.portfolio_value s.positions).1
  if is_valid = false then s
  else
    let position_size :=
      calculate_position_size cfg.risk signal s.portfolio_value s.positions 1
    let entry_price := signal.price * (1 + cfg.slippage)
    let total_cost := position_size + position_size * cfg.commission
    let position_size :=
      if s.cash < total_cost then s.cash / (1 + cfg.commission) * (99 / 100)
      else position_size
    let total_cost :=
      if s.cash < total_cost then position_size + position_size * cfg.commission
      else total_cost
    if position_size < 100 then s
    else
      let stop_loss := calculate_stop_loss cfg.risk entry_price signal data index
      let take_profit := calculate_take_profit cfg.risk entry_price stop_loss signal
      let trade : Trade :=
        { entry_timestamp := signal.timestamp
          exit_timestamp := none
          entry_price := entry_price
          exit_price := none
          position_size := position_size / entry_price
          stop_loss := some stop_loss
          take_profit := some take_profit
          pnl := 0
          pnl_pct := 0
          status := TradeStatus.OPEN
          exit_reason := none
          fibonacci_level := signal.fibonacci_level }
      { s with
        positions := s.positions ++ [trade]
        cash := s.cash - total_cost }

/-- Embeds `BacktestingEngine._execute_sell`: flatten-all at the slippage-adjusted
signal price; each closed position refunds proceeds minus commission, is
appended to the closed-trade ledger, and the position list is re-filtered to
`OPEN` entries (so every just-closed position leaves it). -/
def _execute_sell (cfg : EngineConfig) (s : EngineState) (signal : Signal) :
    EngineState :=
  if s.positions = [] then s
  else
    let exit_price := signal.price * (1 - cfg.slippage)
    let newly_closed :=
      (s.positions.filter (fun p => decide (p.status = TradeStatus.OPEN))).map
        (fun p => p.close_trade exit_price signal.timestamp ExitReason.SIGNAL)
    let cash_delta :=
      (newly_closed.map (fun p =>
        let proceeds := p.position_size * exit_price
        proceeds - proceeds * cfg.commission)).sum
    let updated :=
      s.positions.map (fun p =>
        if p.status = TradeStatus.OPEN then
          p.close_trade exit_price signal.timestamp ExitReason.SIGNAL
        else p)
    { s with
      cash := s.cash + cash_delta
      closed_trades := s.closed_trades ++ newly_closed
      positions := updated.filter (fun p => decide (p.status = TradeStatus.OPEN)) }

/-- The per-position body of `_check_exit_conditions`: the stop-loss test
runs first; the take-profit test is an `elif`, so the stop takes precedence
when both protective levels lie inside the bar's range.  Both tests use
Python truthiness on the stored level and close at the slippage-adjusted
level price. -/
def exitUpdate (cfg : EngineConfig) (low high : ℚ) (ts : ℕ) (p : Trade) : Trade :=
  if truthy p.stop_loss ∧ low ≤ p.stop_loss.getD 0 then
    p.close_trade (p.stop_loss.getD 0 * (1 - cfg.slippage)) ts ExitReason.STOP_LOSS
  else if truthy p.take_profit ∧ p.take_profit.getD 0 ≤ high then
    p.close_trade (p.take_profit.getD 0 * (1 - cfg.slippage)) ts ExitReason.TAKE_PROFIT
  else p

/-- Embeds `BacktestingEngine._check_exit_conditions`. -/
def _check_exit_conditions (cfg : EngineConfig) (s : EngineState)
    (data : List Bar) (index : ℕ) : EngineState :=
  let bar := data.getD index default
  let updated :=
    s.positions.map (fun p =>
      if p.status = TradeStatus.OPEN then exitUpdate cfg bar.low bar.high bar.timestamp p
      else p)
  let newly_closed :=
    ((s.positions.filter (fun p => decide (p.status = TradeStatus.OPEN))).map
      (exitUpdate cfg bar.low bar.high bar.timestamp)).filter
      (fun p => decide (p.status = TradeStatus.CLOSED))
  let cash_delta :=
    (newly_closed.map (fun p =>
      let proceeds := p.position_size * p.exit_price.getD 0
      proceeds - proceeds * cfg.commission)).sum
  { s with
    cash := s.cash + cash_delta
    closed_trades := s.closed_trades ++ newly_closed
    positions := updated.filter (fun p => decide (p.status = TradeStatus.OPEN)) }

/-- The marked-to-market value of the open positions at a price:
`sum(p.position_size * current_price for p in positions if p.status == 'OPEN')`. -/
def positionsValue (positions : List Trade) (current_price : ℚ) : ℚ :=
  ((positions.filter (fun p => decide (p.status = TradeStatus.OPEN))).map
    (fun p => p.position_size * current_price)).sum

/-- Embeds `BacktestingEngine._update_portfolio_value`: recompute equity and append
it to the equity curve unconditionally. -/
def _update_portfolio_value (s : EngineState) (current_price : ℚ) : EngineState :=
  { s with
    portfolio_value := s.cash + positionsValue s.positions current_price
    equity_curve := s.equity_curve ++ [s.cash + positionsValue s.positions current_price] }

/-- One iteration of the bar loop in `BacktestingEngine.run_backtest`:
record the timestamp, evaluate the strategy (an arbitrary function of the
full bar list and the current index), dispatch on the signal type, run the
protective-level checks, then mark to market. -/
def processBar (cfg : EngineConfig) (strategy : List Bar → ℕ → Signal)
    (data : List Bar) (s : EngineState) (i : ℕ) : EngineState :=
  let s1 := { s with timestamps := s.timestamps ++ [(data.getD i default).timestamp] }
  let signal := strategy data i
  let s2 :=
    match signal.signal_type with
    | SignalType.BUY => _execute_buy cfg s1 signal data i
    | SignalType.SELL => _execute_sell cfg s1 signal
    | SignalType.HOLD => s1
  let s3 := _check_exit_conditions cfg s2 data i
  _update_portfolio_value s3 (data.getD i default).close

/-- Embeds `BacktestingEngine.run_backtest` after the required-column check (bars
here are structured records, so the check passes by construction): reset,
loop over all bars, then force-close any remaining open positions at the last
bar's close with reason `END_OF_DATA` (note: this final close does not touch
cash or the equity curve). -/
def run_backtest (cfg : EngineConfig) (data : List Bar)
    (strategy : List Bar → ℕ → Signal) : EngineState :=
  let s := (List.range data.length).foldl (processBar cfg strategy data) (reset cfg)
  if s.positions = [] then s
  else
    let final_price := (data.getD (data.length - 1) default).close
    let final_ts := (data.getD (data.length - 1) default).timestamp
    let closed :=
      (s.positions.filter (fun p => decide (p.status = TradeStatus.OPEN))).map
        (fun p => p.close_trade final_price final_ts ExitReason.END_OF_DATA)
    { s with
      closed_trades := s.closed_trades ++ closed
      positions := [] }

/-! ## `PerformanceAnalyzer.analyze_trades` — profit factor

`analyze_trades` filters the ledger to `CLOSED` trades and returns the default
metrics object (`profit_factor = 0.0`) when none remain.  Otherwise winners
are trades with `pnl > 0`, losers trades with `pnl < 0`,
`gross_profit = sum(winner pnl)`, `gross_loss = abs(sum(loser pnl))`, and
`profit_factor = gross_profit / gross_loss if gross_loss > 0 else 0`. -/

def closedTradesOf (trades : List Trade) : List Trade :=
  trades.filter (fun t => decide (t.status = TradeStatus.CLOSED))

def gross_profit (trades : List Trade) : ℚ :=
  (((closedTradesOf trades).filter (fun t => decide (0 < t.pnl))).map
    (fun t => t.pnl)).sum

def gross_loss (trades : List Trade) : ℚ :=
  |(((closedTradesOf trades).filter (fun t => decide (t.pnl < 0))).map
    (fun t => t.pnl)).sum|

/-- The `profit_factor` field computed by `analyze_trades`. -/
def profit_factor (trades : List Trade) : ℚ :=
  if closedTradesOf trades = [] then 0
  else if 0 < gross_loss trades then gross_profit trades / gross_loss trades
  else 0

/-- Modelled from the spec's words (for the refinement comparison only):
profit factor with the `+∞` convention the spec describes —
`gross profit / |gross loss|`, `+∞` when gross loss is 0 and gross profit is
positive, `0` when there are neither winners nor losers. -/
def profit_factor_spec (trades : List Trade) : WithTop ℚ :=
  if 0 < gross_loss trades then ((gross_profit trades / gross_loss trades : ℚ) : WithTop ℚ)
  else if 0 < gross_profit trades then ⊤
  else 0

/-- A concrete closed winning trade: bought at 100, sold at 110, 1 share. -/
def winningTrade : Trade :=
  { entry_timestamp := 0
    exit_timestamp := some 1
    entry_price := 100
    exit_price := some 110
    position_size := 1
    stop_loss := some 90
    take_profit := some 110
    pnl := 10
    pnl_pct := 10
    status := TradeStatus.CLOSED
    exit_reason := some ExitReason.TAKE_PROFIT
    fibonacci_level := none }

/-- C3 (counterexample): on a ledger holding one closed winning trade
(gross profit 10, gross loss 0) the code returns profit factor `0`, while the
claim demands `+∞`. -/
theorem profit_factor_counterexample :
    profit_factor [winningTrade] = 0 ∧
      profit_factor_spec [winningTrade] = ⊤ ∧
      (profit_factor [winningTrade] : WithTop ℚ) ≠ profit_factor_spec [winningTrade] := by
  have hgp : gross_profit [winningTrade] = 10 := by
    norm_num [gross_profit, closedTradesOf, winningTrade, List.filter_cons, List.filter_nil]
  have hgl : gross_loss [winningTrade] = 0 := by
    norm_num [gross_loss, closedTradesOf, winningTrade, List.filter_cons, List.filter_nil]
  have hct : closedTradesOf [winningTrade] = [winningTrade] := by
    norm_num [closedTradesOf, winningTrade, List.filter_cons, List.filter_nil]
  have h1 : profit_factor [winningTrade] = 0 := by
    rw [profit_factor, if_neg (by rw [hct]; exact List.cons_ne_nil _ _), hgl]
    norm_num
  have h2 : profit_factor_spec [winningTrade] = ⊤ := by
    rw [profit_factor_spec, hgl, hgp]
    norm_num
  refine ⟨h1, h2, ?_⟩
  intro h
  rw [h1, h2] at h
  exact WithTop.coe_ne_top h

/-- C3 (amended): for every trade ledger, the profit factor is
`gross profit / |gross loss|` when the gross loss is positive, and `0`
otherwise — in particular it is `0`, not `+∞`, when there are winners but no
losers, and `0` when there are neither winners nor losers. -/
theorem profit_factor_eq (trades : List Trade) :
    profit_factor trades =
      if 0 < gross_loss trades then gross_profit trades / gross_loss trades else 0 := by
  rw [profit_factor]
  by_cases hempty : closedTradesOf trades = []
  · rw [if_pos hempty]
    have hgl : gross_loss trades = 0 := by
      rw [gross_loss, hempty]
      simp [List.filter]
    rw [hgl]
    simp
  · rw [if_neg hempty]

/-! ## Engine invariants -/

lemma update_portfolio_value_last (s : EngineState) (c : ℚ) :
    (_update_portfolio_value s c).equity_curve.getLast? =
      some ((_update_portfolio_value s c).cash +
        positionsValue (_update_portfolio_value s c).positions c) := by
  rw [_update_portfolio_value]
  simp [List.getLast?_concat]

/-- C1: at the end of every iteration of the bar loop — whatever state the
engine was in before the bar and whatever signal the strategy produced — the
last entry of the equity curve equals cash plus the marked-to-market value
(shares × bar close) of all open positions.  Floats are modelled as exact
rationals, so the identity is exact. -/
theorem cash_conservation (cfg : EngineConfig) (strategy : List Bar → ℕ → Signal)
    (data : List Bar) (s : EngineState) (i : ℕ) :
    (processBar cfg strategy data s i).equity_curve.getLast? =
      some ((processBar cfg strategy data s i).cash +
        positionsValue (processBar cfg strategy data s i).positions
          (data.getD i default).close) := by
  simp only [processBar]
  exact update_portfolio_value_last _ _

lemma execute_buy_positions_length (cfg : EngineConfig) (s : EngineState)
    (signal : Signal) (data : List Bar) (index : ℕ) :
    (_execute_buy cfg s signal data index).positions.length ≤ s.positions.length + 1 := by
  simp only [_execute_buy]
  split
  · exact Nat.le_succ _
  · split <;> split
    all_goals first
      | exact Nat.le_succ _
      | simp

lemma execute_sell_positions_length (cfg : EngineConfig) (s : EngineState)
    (signal : Signal) :
    (_execute_sell cfg s signal).positions.length ≤ s.positions.length := by
  simp only [_execute_sell]
  split
  · exact le_refl _
  · calc ((s.positions.map _).filter _).length
        ≤ (s.positions.map _).length := List.length_filter_le _ _
      _ = s.positions.length := List.length_map _ _

lemma check_exit_positions_length (cfg : EngineConfig) (s : EngineState)
    (data : List Bar) (index : ℕ) :
    (_check_exit_conditions cfg s data index).positions.length ≤ s.positions.length := by
  simp only [_check_exit_conditions]
  calc ((s.positions.map _).filter _).length
      ≤ (s.positions.map _).length := List.length_filter_le _ _
    _ = s.positions.length := List.length_map _ _

/-- C7: processing one bar opens at most one new position — the open-position
list grows by at most one during any single iteration of the bar loop, for
every incoming state, bar series and strategy. -/
theorem at_most_one_entry_per_bar (cfg : EngineConfig)
    (strategy : List Bar → ℕ → Signal) (data : List Bar) (s : EngineState) (i : ℕ) :
    (processBar cfg strategy data s i).positions.length ≤ s.positions.length + 1 := by
  simp only [processBar]
  have hupd : ∀ (t : EngineState) (c : ℚ),
      (_update_portfolio_value t c).positions = t.positions := fun _ _ => rfl
  rw [hupd]
  refine le_trans (check_exit_positions_length _ _ _ _) ?_
  cases h : (strategy data i).signal_type with
  | BUY =>
    simp only [h]
    exact execute_buy_positions_length _ _ _ _ _
  | SELL =>
    simp only [h]
    exact le_trans (execute_sell_positions_length _ _ _) (Nat.le_succ _)
  | HOLD =>
    simp only [h]
    exact Nat.le_succ _

lemma execute_buy_equity (cfg : EngineConfig) (s : EngineState) (signal : Signal)
    (data : List Bar) (index : ℕ) :
    (_execute_buy cfg s signal data index).equity_curve = s.equity_curve := by
  simp only [_execute_buy]
  split
  · rfl
  · split <;> split <;> rfl

lemma execute_sell_equity (cfg : EngineConfig) (s : EngineState) (signal : Signal) :
    (_execute_sell cfg s signal).equity_curve = s.equity_curve := by
  simp only [_execute_sell]
  split <;> rfl

lemma check_exit_equity (cfg : EngineConfig) (s : EngineState) (data : List Bar)
    (index : ℕ) :
    (_check_exit_conditions cfg s data index).equity_curve = s.equity_curve := rfl

lemma processBar_equity_length (cfg : EngineConfig)
    (strategy : List Bar → ℕ → Signal) (data : List Bar) (s : EngineState) (i : ℕ) :
    (processBar cfg strategy data s i).equity_curve.length = s.equity_curve.length + 1 := by
  simp only [processBar]
  rw [_update_portfolio_value]
  simp only [List.length_append, List.length_singleton]
  rw [check_exit_equity]
  congr 1
  cases h : (strategy data i).signal_type with
  | BUY =>
    simp only [h]
    rw [execute_buy_equity]
  | SELL =>
    simp only [h]
    rw [execute_sell_equity]
  | HOLD =>
    simp only [h]

lemma foldl_processBar_equity (cfg : EngineConfig)
    (strategy : List Bar → ℕ → Signal) (data : List Bar) :
    ∀ (l : List ℕ) (s : EngineState),
      (l.foldl (processBar cfg strategy data) s).equity_curve.length =
        s.equity_curve.length + l.length
  | [], s => by simp
  | i :: l, s => by
    simp only [List.foldl_cons, List.length_cons]
    rw [foldl_processBar_equity cfg strategy data l (processBar cfg strategy data s i),
      processBar_equity_length]
    omega

/-- C8: after a full run the engine's equity curve holds the initial-capital
seed plus exactly one entry per bar: its length is `len(bars) + 1`, for every
bar series and strategy (the end-of-data force-close touches only the ledger,
never the equity curve). -/
theorem equity_curve_length_eq (cfg : EngineConfig) (data : List Bar)
    (strategy : List Bar → ℕ → Signal) :
    (run_backtest cfg data strategy).equity_curve.length = data.length + 1 := by
  rw [run_backtest]
  have hfold :
      (((List.range data.length).foldl (processBar cfg strategy data)
        (reset cfg)).equity_curve.length) = data.length + 1 := by
    rw [foldl_processBar_equity]
    simp only [reset, List.length_singleton, List.length_range]
    omega
  split
  · exact hfold
  · simpa using hfold

/-- A concrete open position whose protective levels (stop 10, target 11)
both lie inside the bar range `[9, 12]` used by the counterexample. -/
def stoppedPosition : Trade :=
  { entry_timestamp := 0
    exit_timestamp := none
    entry_price := 21 / 2
    exit_price := none
    position_size := 1
    stop_loss := some 10
    take_profit := some 11
    pnl := 0
    pnl_pct := 0
    status := TradeStatus.OPEN
    exit_reason := none
    fibonacci_level := none }

/-- C4 (counterexample): with the default configuration (slippage 0.1%) and a
bar with `low = 9 ≤ stop_loss = 10` and `take_profit = 11 ≤ high = 12`, the
position is closed with reason `STOP_LOSS` but at the slippage-adjusted price
`10 × (1 − 0.001) = 9.99`, not at the stop price 10 — so "closes … at the
stop price" is false as stated. -/
theorem stop_price_counterexample :
    (9 : ℚ) ≤ stoppedPosition.stop_loss.getD 0 ∧
      stoppedPosition.take_profit.getD 0 ≤ (12 : ℚ) ∧
      (exitUpdate defaultEngineConfig 9 12 0 stoppedPosition).exit_reason =
        some ExitReason.STOP_LOSS ∧
      (exitUpdate defaultEngineConfig 9 12 0 stoppedPosition).exit_price =
        some (999 / 100) ∧
      (999 / 100 : ℚ) ≠ stoppedPosition.stop_loss.getD 0 := by
  refine ⟨by norm_num [stoppedPosition], by norm_num [stoppedPosition], ?_, ?_, ?_⟩
  · rw [exitUpdate, if_pos (by norm_num [stoppedPosition, truthy])]
    rfl
  · rw [exitUpdate, if_pos (by norm_num [stoppedPosition, truthy])]
    norm_num [Trade.close_trade, stoppedPosition, defaultEngineConfig]
  · norm_num [stoppedPosition]

/-- C4 (amended): for every configuration, bar range and open position whose
stored stop-loss is truthy (Python: non-`None` and nonzero), if the bar's low
reaches the stop and its high reaches the target, the per-position exit check
closes the position with `exit_reason = STOP_LOSS` — the stop-loss branch
takes precedence over the take-profit branch — at the slippage-adjusted stop
price `stop_loss × (1 − slippage)`. -/
theorem stop_precedence (cfg : EngineConfig) (low high : ℚ) (ts : ℕ) (p : Trade)
    (hsl : truthy p.stop_loss = true) (hlow : low ≤ p.stop_loss.getD 0)
    (_hhigh : p.take_profit.getD 0 ≤ high) :
    (exitUpdate cfg low high ts p).exit_reason = some ExitReason.STOP_LOSS ∧
      (exitUpdate cfg low high ts p).exit_price =
        some (p.stop_loss.getD 0 * (1 - cfg.slippage)) ∧
      (exitUpdate cfg low high ts p).status = TradeStatus.CLOSED := by
  rw [exitUpdate, if_pos ⟨hsl, hlow⟩]
  exact ⟨rfl, rfl, rfl⟩

/-- Witness for the amended C4 at a concrete position and bar. -/
theorem stop_precedence_witness :
    (exitUpdate defaultEngineConfig 9 12 0 stoppedPosition).exit_reason =
        some ExitReason.STOP_LOSS ∧
      (exitUpdate defaultEngineConfig 9 12 0 stoppedPosition).exit_price =
        some (stoppedPosition.stop_loss.getD 0 * (1 - defaultEngineConfig.slippage)) ∧
      (exitUpdate defaultEngineConfig 9 12 0 stoppedPosition).status =
        TradeStatus.CLOSED :=
  stop_precedence defaultEngineConfig 9 12 0 stoppedPosition rfl
    (by norm_num [stoppedPosition]) (by norm_num [stoppedPosition])

/-- A concrete signal carrying no protective levels of its own. -/
def bareSignal : Signal :=
  { timestamp := 0
    signal_type := SignalType.BUY
    price := 100
    position_size := 1
    stop_loss := none
    take_profit := none
    fibonacci_level := none
    confidence := 1 }

/-- C9 (counterexample): with the default config and a signal carrying no
take-profit, `calculate_take_profit 100 110` returns
`100 + 1.618 × |100 − 110| = 116.18`, not
`100 + 1.618 × (100 − 110) = 83.82` as the claim's signed formula demands. -/
theorem calculate_take_profit_counterexample :
    calculate_take_profit defaultRiskConfig 100 110 bareSignal = 11618 / 100 ∧
      (11618 / 100 : ℚ) ≠ 100 + (1618 / 1000) * (100 - 110) := by
  constructor
  · rw [calculate_take_profit, if_neg (by norm_num [bareSignal, truthy])]
    norm_num [defaultRiskConfig]
  · norm_num

/-- C9 (amended): whenever the signal carries no truthy take-profit of its
own, `calculate_take_profit` returns
`entry_price + reward_ratio × |entry_price − stop_loss|` (the risk is taken
in absolute value); the reward ratio of the default configuration is the
golden ratio 1.618. -/
theorem calculate_take_profit_eq (cfg : RiskConfig) (entry_price stop_loss : ℚ)
    (signal : Signal) (h : truthy signal.take_profit = false) :
    calculate_take_profit cfg entry_price stop_loss signal =
        entry_price + cfg.risk_reward_ratio * |entry_price - stop_loss| ∧
      defaultRiskConfig.risk_reward_ratio = 1618 / 1000 := by
  constructor
  · rw [calculate_take_profit, if_neg (by simp [h])]
    ring
  · rfl

/-- Witness for the amended C9 at a concrete entry/stop pair. -/
theorem calculate_take_profit_eq_witness :
    calculate_take_profit defaultRiskConfig 100 90 bareSignal =
        100 + defaultRiskConfig.risk_reward_ratio * |(100 : ℚ) - 90| ∧
      defaultRiskConfig.risk_reward_ratio = 1618 / 1000 :=
  calculate_take_profit_eq defaultRiskConfig 100 90 bareSignal rfl

end AgenticFlow
